import Mathlib

/-
  Shallow embedding of the Results collection from src/src/results.cpp /
  src/src/results.hpp (realm-object-store).

  Modelling conventions:
  * A table is a list of rows with stable indices; realm's physical row
    removal is modelled by marking a row unattached (`attached := false`),
    which is what `TableView::is_row_attached` observes.  `Table::size()`
    is the number of attached rows.
  * Cell values of every numeric column type are modelled uniformly as
    `Option Int` (`none` = null); the declared column type (`ColType`) is
    kept separately and drives the aggregate dispatch exactly as
    `Results::aggregate` does.  Averages are rationals.
  * A `Query` is a predicate over row indices plus an optional restricting
    view (realm's `Table::where(LinkViewRef)` / view-restricted queries);
    `find_all` iterates the restricting view when present, so duplicate
    link entries produce duplicate view rows, as in realm-core.
  * C++ exceptions become `Except Err`; `validate_read` / `validate_write`
    are inlined as the leading checks of each operation, in source order.
  * A `REALM_COMPILER_HINT_UNREACHABLE` / out-of-range table access is
    modelled as the distinguished error `Err.undefinedBehavior`.
-/

namespace RealmOS

/-- Declared column types, as dispatched on by `Results::aggregate`. -/
inductive ColType
  | cInt
  | cFloat
  | cDouble
  | cTimestamp
  | cString
  | cBinary
  | cBool
deriving DecidableEq, Repr

/-- One table row: its cells (one `Option Int` per column) and whether the
row is still attached (false once deleted from storage). -/
structure TRow where
  cells : List (Option Int)
  attached : Bool
deriving DecidableEq, Repr

/-- The backing table: declared column types and the rows. -/
structure TableData where
  colTypes : List ColType
  rows : List TRow
deriving DecidableEq, Repr

/-- The shared Realm (data context) state observed by a Results object:
the backing table, whether that table is still attached, and the
transaction / configuration flags consulted by the source. -/
structure RealmState where
  table : TableData
  tableAttached : Bool := true
  inTransaction : Bool := false
  readOnly : Bool := false
  canDeliver : Bool := true
deriving DecidableEq, Repr

/-- Is row `i` attached (present and not deleted)? -/
def rowAttached (s : RealmState) (i : Nat) : Bool :=
  match s.table.rows.get? i with
  | some row => row.attached
  | none => false

/-- Cell of row `i` at column `c` (`none` when null or out of range). -/
def cellAt (s : RealmState) (i c : Nat) : Option Int :=
  match s.table.rows.get? i with
  | some row => (row.cells.get? c).getD none
  | none => none

/-- Indices of the attached rows, in table order. -/
def attachedIds (s : RealmState) : List Nat :=
  (List.range s.table.rows.length).filter (fun i => rowAttached s i)

/-- Model of `Table::size()`: the number of (attached) rows. -/
def liveCount (s : RealmState) : Nat := (attachedIds s).length

/-- A query: a row predicate plus an optional restricting view
(the `m_view` of a realm `Query`), iterated by `find_all`. -/
structure QueryRep where
  pred : Nat → Bool
  view : Option (List Nat)

/-- Model of `Query::find_all` row set: iterate the restricting view when present
(duplicates preserved), else scan the table; only attached matches. -/
def findAllIds (q : QueryRep) (s : RealmState) : List Nat :=
  match q.view with
  | none => (attachedIds s).filter q.pred
  | some ids => ids.filter (fun i => rowAttached s i && q.pred i)

/-- Model of `Table::where()`: the unconditioned query. -/
def whereAll : QueryRep := ⟨fun _ => true, none⟩

/-- Model of `Table::where(LinkViewRef)`: unconditioned query restricted to the
link view's entries. -/
def whereLinkView (lv : List Nat) : QueryRep := ⟨fun _ => true, some lv⟩

/-- Query restricted to a copied table view's rows (the no-recoverable-
origin branch of `Results::get_query`). -/
def whereView (ids : List Nat) : QueryRep := ⟨fun _ => true, some ids⟩

/-- Model of `Query::and_query`: conjoin a further condition. -/
def andQuery (q q2 : QueryRep) : QueryRep := ⟨fun i => q.pred i && q2.pred i, q.view⟩

/-- A sort / distinct descriptor: (column, ascending) pairs. -/
abbrev SortDesc := List (Nat × Bool)

/-- Compare two cells for one sort column (nulls first, flipped when
descending). -/
def cmpCell (asc : Bool) (a b : Option Int) : Ordering :=
  let o :=
    match a, b with
    | none, none => Ordering.eq
    | none, some _ => Ordering.lt
    | some _, none => Ordering.gt
    | some x, some y => compare x y
  if asc then o else o.swap

/-- Lexicographic comparison of two rows under a sort descriptor. -/
def cmpKey : SortDesc → RealmState → Nat → Nat → Ordering
  | [], _, _, _ => Ordering.eq
  | (c, asc) :: rest, s, i, j =>
    match cmpCell asc (cellAt s i c) (cellAt s j c) with
    | Ordering.eq => cmpKey rest s i j
    | o => o

/-- Row order (as Bool) induced by a sort descriptor. -/
def leKey (sd : SortDesc) (s : RealmState) (i j : Nat) : Bool :=
  cmpKey sd s i j ≠ Ordering.gt

/-- Stable insertion for the sort below. -/
def insertSorted (le : Nat → Nat → Bool) (x : Nat) : List Nat → List Nat
  | [] => [x]
  | y :: ys => if le x y then x :: y :: ys else y :: insertSorted le x ys

/-- Model of `TableView::sort`: stable sort of the view rows by the descriptor. -/
def sortIds (sd : SortDesc) (s : RealmState) (l : List Nat) : List Nat :=
  l.foldr (insertSorted (leKey sd s)) []

/-- Distinct key of a row: its cells at the descriptor's columns. -/
def distinctKey (dd : SortDesc) (s : RealmState) (i : Nat) : List (Option Int) :=
  dd.map (fun p => cellAt s i p.1)

/-- Model of `TableView::distinct`: keep the first row of each distinct key. -/
def dedupIds (dd : SortDesc) (s : RealmState) :
    List (List (Option Int)) → List Nat → List Nat
  | _, [] => []
  | seen, x :: xs =>
    let k := distinctKey dd s x
    if k ∈ seen then dedupIds dd s seen xs
    else x :: dedupIds dd s (k :: seen) xs

/-- A materialized view (realm `TableView`): the row indices it holds plus
the recipe (originating query, applied sort / distinct descriptors) that
`sync_if_needed` re-evaluates. -/
structure TableViewD where
  ids : List Nat
  origin : Option QueryRep
  sortDesc : Option SortDesc
  distinctDesc : Option SortDesc

/-- A default-constructed (detached) `TableView`. -/
def emptyTV : TableViewD := ⟨[], none, none, none⟩

/-- Model of `Query::find_all`: materialize the query's current matches. -/
def findAllTV (q : QueryRep) (s : RealmState) : TableViewD :=
  ⟨findAllIds q s, some q, none, none⟩

/-- Model of `TableView::sort`: reorder the rows and record the descriptor. -/
def applySortTV (sd : SortDesc) (tv : TableViewD) (s : RealmState) : TableViewD :=
  ⟨sortIds sd s tv.ids, tv.origin, some sd, tv.distinctDesc⟩

/-- Model of `TableView::distinct`: deduplicate the rows and record the descriptor. -/
def applyDistinctTV (dd : SortDesc) (tv : TableViewD) (s : RealmState) : TableViewD :=
  ⟨dedupIds dd s [] tv.ids, tv.origin, tv.sortDesc, some dd⟩

/-- Model of `TableView::sync_if_needed`: re-evaluate the recipe against the
current data (no-op for a view with no originating query). -/
def syncView (tv : TableViewD) (s : RealmState) : TableViewD :=
  match tv.origin with
  | none => tv
  | some q =>
    let l := findAllIds q s
    let l := match tv.sortDesc with | some sd => sortIds sd s l | none => l
    let l := match tv.distinctDesc with | some dd => dedupIds dd s [] l | none => l
    ⟨l, tv.origin, tv.sortDesc, tv.distinctDesc⟩

/-- Model of `Results::Mode`. -/
inductive Mode
  | empty
  | table
  | query
  | linkView
  | tableView
deriving DecidableEq, Repr

/-- Model of `Results::UpdatePolicy`. -/
inductive UpdatePolicy
  | auto
  | never
deriving DecidableEq, Repr

/-- The Results object's own fields (defaults are those of the
default-constructed `Results()`: no realm, no table, `Empty` mode). -/
structure ResultsD where
  hasRealm : Bool := false
  hasTable : Bool := false
  mode : Mode := Mode.empty
  query : QueryRep := ⟨fun _ => false, none⟩
  tableView : TableViewD := emptyTV
  linkView : List Nat := []
  sort : Option SortDesc := none
  distinct : Option SortDesc := none
  notifier : Bool := false
  updatePolicy : UpdatePolicy := UpdatePolicy.auto
  hasUsedTableView : Bool := false
  wantsBackgroundUpdates : Bool := true

/-- The error kinds raised by the source (exception identities kept
distinct; `rawUnsupported` is the `throw "unsupported"` of the generic
aggregate templates, `undefinedBehavior` marks C++ UB paths). -/
inductive Err
  | invalidated
  | invalidTransaction (msg : String)
  | outOfBounds (requested : Nat) (valid : Nat)
  | unsupportedColumnType (column : Nat) (op : String)
  | logicError (msg : String)
  | detachedAccessor
  | incorrectTable
  | rawUnsupported
  | undefinedBehavior
deriving DecidableEq, Repr

/-- Model of `Results::is_valid`: thread check (always passes in this
single-threaded embedding) and table-attachment check. -/
def isValid (r : ResultsD) (s : RealmState) : Bool :=
  !(r.hasTable && !s.tableAttached)

/-- Model of `Results::get_query` (const): a query matching the current member
set, per mode. -/
def getQuery (r : ResultsD) (s : RealmState) : QueryRep :=
  match r.mode with
  | Mode.empty => r.query
  | Mode.query => r.query
  | Mode.tableView =>
    match r.tableView.origin with
    | some q => q
    | none =>
      let tv := if r.updatePolicy = UpdatePolicy.auto then syncView r.tableView s else r.tableView
      whereView tv.ids
  | Mode.linkView => whereLinkView r.linkView
  | Mode.table => whereAll

/-- The materialization pipeline of `update_tableview`'s `Query` branch:
`find_all`, then the sort descriptor, then the distinct descriptor. -/
def matTV (q : QueryRep) (sd dd : Option SortDesc) (s : RealmState) : TableViewD :=
  let tv := findAllTV q s
  let tv := match sd with | some x => applySortTV x tv s | none => tv
  match dd with | some y => applyDistinctTV y tv s | none => tv

/-- The `Mode::TableView` tail of `update_tableview`: register a notifier
when requested and permitted, mark the view consumed, sync the view. -/
def tvPhase (r : ResultsD) (s : RealmState) (w : Bool) : ResultsD :=
  let r1 :=
    if w && !r.notifier && !s.inTransaction && s.canDeliver
    then { r with notifier := true } else r
  { r1 with hasUsedTableView := true, tableView := syncView r1.tableView s }

/-- Model of `Results::update_tableview`. -/
def updateTableview (r : ResultsD) (s : RealmState) (w : Bool) : ResultsD :=
  if r.updatePolicy = UpdatePolicy.never then r
  else
    match r.mode with
    | Mode.empty => r
    | Mode.table => r
    | Mode.linkView => r
    | Mode.query =>
      tvPhase { r with tableView := matTV r.query r.sort r.distinct s,
                       mode := Mode.tableView } s w
    | Mode.tableView => tvPhase r s w

/-- Model of `Results::update_linkview`: with a sort/distinct descriptor set,
reconstruct the query, switch to `Query` mode and materialize (returning
false = fall through); else the link view may be read directly. -/
def updateLinkview (r : ResultsD) (s : RealmState) : Bool × ResultsD :=
  if r.sort.isSome || r.distinct.isSome then
    let r1 := { r with query := getQuery r s, mode := Mode.query }
    (false, updateTableview r1 s true)
  else (true, r)

/-- Model of `Results::size` (validate_read inlined as the leading check). -/
def sizeRes (r : ResultsD) (s : RealmState) : Except Err (Nat × ResultsD) :=
  if isValid r s then
    match r.mode with
    | Mode.empty => Except.ok (0, r)
    | Mode.table => Except.ok (liveCount s, r)
    | Mode.linkView => Except.ok (r.linkView.length, r)
    | Mode.query =>
      if r.distinct.isNone then Except.ok ((findAllIds r.query s).length, r)
      else
        let r1 := updateTableview r s true
        Except.ok (r1.tableView.ids.length, r1)
    | Mode.tableView =>
      let r1 := updateTableview r s true
      Except.ok (r1.tableView.ids.length, r1)
  else Except.error Err.invalidated

/-- The value produced by indexed access: a row accessor, or the detached
placeholder a frozen view yields for deleted rows. -/
inductive Elem
  | row (id : Nat)
  | detachedRow
deriving DecidableEq, Repr

/-- Model of `Results::do_get` (row-accessor instantiation).  The `Empty`/`Query`
cases are `REALM_COMPILER_HINT_UNREACHABLE` in the source; callers never
take them. -/
def doGet (r : ResultsD) (s : RealmState) (ndx : Nat) : Elem :=
  match r.mode with
  | Mode.empty => Elem.detachedRow
  | Mode.query => Elem.detachedRow
  | Mode.table => Elem.row ((attachedIds s).getD ndx 0)
  | Mode.linkView => Elem.row (r.linkView.getD ndx 0)
  | Mode.tableView =>
    let id := r.tableView.ids.getD ndx 0
    if r.updatePolicy = UpdatePolicy.never && !rowAttached s id then Elem.detachedRow
    else Elem.row id

/-- The `throw OutOfBoundsIndexException{row_ndx, size()}` tail of
`Results::get`: the bound is the (possibly mutated) receiver's `size()`. -/
def throwSized (r : ResultsD) (s : RealmState) (ndx : Nat) : Except Err (Elem × ResultsD) :=
  match sizeRes r s with
  | Except.ok (n, _) => Except.error (Err.outOfBounds ndx n)
  | Except.error e => Except.error e

/-- Model of `Results::get` (validate_read inlined as the leading check). -/
def getRes (r : ResultsD) (s : RealmState) (ndx : Nat) : Except Err (Elem × ResultsD) :=
  if isValid r s then
    match r.mode with
    | Mode.empty => throwSized r s ndx
    | Mode.table =>
      if ndx < liveCount s then Except.ok (doGet r s ndx, r) else throwSized r s ndx
    | Mode.linkView =>
      match updateLinkview r s with
      | (true, _) =>
        if ndx < r.linkView.length then Except.ok (doGet r s ndx, r)
        else throwSized r s ndx
      | (false, r1) =>
        let r2 := updateTableview r1 s true
        if r2.tableView.ids.length ≤ ndx then throwSized r2 s ndx
        else Except.ok (doGet r2 s ndx, r2)
    | Mode.query =>
      let r2 := updateTableview r s true
      if r2.tableView.ids.length ≤ ndx then throwSized r2 s ndx
      else Except.ok (doGet r2 s ndx, r2)
    | Mode.tableView =>
      let r2 := updateTableview r s true
      if r2.tableView.ids.length ≤ ndx then throwSized r2 s ndx
      else Except.ok (doGet r2 s ndx, r2)
  else Except.error Err.invalidated

/-- Detach (delete from storage) the rows with the given indices. -/
def detachRows (ids : List Nat) (s : RealmState) : RealmState :=
  { s with table := { s.table with
      rows := s.table.rows.mapIdx
        (fun i row => if i ∈ ids then { row with attached := false } else row) } }

/-- Model of `Table::clear()`: delete every row. -/
def clearTable (s : RealmState) : RealmState :=
  { s with table := { s.table with
      rows := s.table.rows.map (fun row => { row with attached := false }) } }

/-- Model of `Results::clear` (validate_write inlined, in source order: the
`Empty` branch returns before any validation). -/
def clearRes (r : ResultsD) (s : RealmState) : Except Err (ResultsD × RealmState) :=
  match r.mode with
  | Mode.empty => Except.ok (r, s)
  | Mode.table =>
    if !isValid r s then Except.error Err.invalidated
    else if !(r.hasRealm && s.inTransaction) then
      Except.error (Err.invalidTransaction "Must be in a write transaction")
    else Except.ok (r, clearTable s)
  | Mode.query =>
    if !isValid r s then Except.error Err.invalidated
    else if !(r.hasRealm && s.inTransaction) then
      Except.error (Err.invalidTransaction "Must be in a write transaction")
    else
      let r1 := updateTableview r s true
      match r1.updatePolicy with
      | UpdatePolicy.auto =>
        Except.ok ({ r1 with tableView := { r1.tableView with ids := [] } },
                   detachRows r1.tableView.ids s)
      | UpdatePolicy.never =>
        -- the removal runs on a private copy of the view; the member view
        -- is untouched, so the frozen size() cannot change
        Except.ok (r1, detachRows r1.tableView.ids s)
  | Mode.tableView =>
    if !isValid r s then Except.error Err.invalidated
    else if !(r.hasRealm && s.inTransaction) then
      Except.error (Err.invalidTransaction "Must be in a write transaction")
    else
      let r1 := updateTableview r s true
      match r1.updatePolicy with
      | UpdatePolicy.auto =>
        Except.ok ({ r1 with tableView := { r1.tableView with ids := [] } },
                   detachRows r1.tableView.ids s)
      | UpdatePolicy.never =>
        Except.ok (r1, detachRows r1.tableView.ids s)
  | Mode.linkView =>
    if !isValid r s then Except.error Err.invalidated
    else if !(r.hasRealm && s.inTransaction) then
      Except.error (Err.invalidTransaction "Must be in a write transaction")
    else Except.ok (r, detachRows r.linkView s)

/-- Model of `Results::snapshot` (rvalue overload; the const overload copies
first, so this is the behavior of both). -/
def snapshotRes (r : ResultsD) (s : RealmState) : Except Err ResultsD :=
  if isValid r s then
    match r.mode with
    | Mode.empty => Except.ok ({} : ResultsD)
    | _ =>
      let r1 :=
        match r.mode with
        | Mode.table => { r with query := getQuery r s, mode := Mode.query }
        | Mode.linkView => { r with query := getQuery r s, mode := Mode.query }
        | _ => r
      let r2 := updateTableview r1 s false
      Except.ok { r2 with notifier := false, updatePolicy := UpdatePolicy.never }
  else Except.error Err.invalidated

/-- Model of `Results::prepare_async`. -/
def prepareAsync (r : ResultsD) (s : RealmState) : Except Err ResultsD :=
  if r.notifier then Except.ok r
  else if s.readOnly then
    Except.error (Err.invalidTransaction "Cannot create asynchronous query for read-only Realms")
  else if s.inTransaction then
    Except.error (Err.invalidTransaction "Cannot create asynchronous query while in a write transaction")
  else if r.updatePolicy = UpdatePolicy.never then
    Except.error (Err.logicError "Cannot create asynchronous query for snapshotted Results.")
  else Except.ok { r with wantsBackgroundUpdates := true, notifier := true }

/-- Model of `Results::Internal::set_table_view`.  The `REALM_ASSERT` that the
policy is not `Never` is modelled as `none` (assertion failure). -/
def setTableView (r : ResultsD) (tv : TableViewD) : Option ResultsD :=
  if r.updatePolicy = UpdatePolicy.never then none
  else
    some { r with
      wantsBackgroundUpdates :=
        if r.mode = Mode.tableView then r.hasUsedTableView else r.wantsBackgroundUpdates,
      tableView := tv,
      mode := Mode.tableView,
      hasUsedTableView := false }

/-- The query-backed Results constructor
`Results(SharedRealm, Query, SortDescriptor, SortDescriptor)`. -/
def mkQueryResults (q : QueryRep) (sd dd : Option SortDesc) : ResultsD :=
  { hasRealm := true, hasTable := true, mode := Mode.query, query := q,
    sort := sd, distinct := dd }

/-- The view-backed Results constructor
`Results(SharedRealm, TableView, SortDescriptor, SortDescriptor)`. -/
def mkViewResults (tv : TableViewD) (sd dd : Option SortDesc) : ResultsD :=
  { hasRealm := true, hasTable := true, mode := Mode.tableView, tableView := tv,
    sort := sd, distinct := dd }

/-- Model of `Results::sort` (a const member: the receiver is untouched; the
result is built from the reconstructed query). -/
def sortOp (r : ResultsD) (s : RealmState) (sd : SortDesc) : Except Err ResultsD :=
  if isValid r s then Except.ok (mkQueryResults (getQuery r s) (some sd) r.distinct)
  else Except.error Err.invalidated

/-- Model of `Results::filter` (a const member: the receiver is untouched). -/
def filterOp (r : ResultsD) (s : RealmState) (q2 : QueryRep) : Except Err ResultsD :=
  if isValid r s then Except.ok (mkQueryResults (andQuery (getQuery r s) q2) r.sort r.distinct)
  else Except.error Err.invalidated

/-- Model of `Results::get_tableview` (returns the view and the possibly mutated
receiver). -/
def getTableviewOp (r : ResultsD) (s : RealmState) : Except Err (TableViewD × ResultsD) :=
  if isValid r s then
    match r.mode with
    | Mode.empty => Except.ok (emptyTV, r)
    | Mode.linkView =>
      match updateLinkview r s with
      | (true, _) => Except.ok (findAllTV (whereLinkView r.linkView) s, r)
      | (false, r1) =>
        let r2 := updateTableview r1 s true
        Except.ok (r2.tableView, r2)
    | Mode.query =>
      let r2 := updateTableview r s true
      Except.ok (r2.tableView, r2)
    | Mode.tableView =>
      let r2 := updateTableview r s true
      Except.ok (r2.tableView, r2)
    | Mode.table => Except.ok (findAllTV whereAll s, r)
  else Except.error Err.invalidated

/-- Model of `Results::distinct` (non-const: materializes the receiver via
`get_tableview`; the result wraps the deduplicated view).  Returns
(new collection, mutated receiver). -/
def distinctOp (r : ResultsD) (s : RealmState) (u : SortDesc) :
    Except Err (ResultsD × ResultsD) :=
  match getTableviewOp r s with
  | Except.error e => Except.error e
  | Except.ok (tv, r1) =>
    let tv2 := applyDistinctTV u tv s
    Except.ok (mkViewResults tv2 r1.sort (some u), r1)

/-- The four aggregate operations. -/
inductive AggOp
  | maxOp
  | minOp
  | sumOp
  | avgOp
deriving DecidableEq, Repr

/-- The operation name passed to `UnsupportedColumnTypeException`. -/
def opName : AggOp → String
  | AggOp.maxOp => "max"
  | AggOp.minOp => "min"
  | AggOp.sumOp => "sum"
  | AggOp.avgOp => "average"

/-- The non-null cells of a column over a row set. -/
def nonNullCells (s : RealmState) (ids : List Nat) (c : Nat) : List Int :=
  ids.filterMap (fun i => cellAt s i c)

/-- Maximum of a list (the found-index sentinel of `maximum_int` etc. is
modelled by `none` for an empty/all-null set). -/
def listMax : List Int → Option Int
  | [] => none
  | x :: xs => match listMax xs with | none => some x | some m => some (max x m)

/-- Minimum, with the same sentinel convention. -/
def listMin : List Int → Option Int
  | [] => none
  | x :: xs => match listMin xs with | none => some x | some m => some (min x m)

/-- Sum of a list (zero for an empty set, as `sum_int` etc.). -/
def sumInts (l : List Int) : Int := l.foldl (fun a b => a + b) 0

/-- The typed getter invoked by `Results::aggregate`'s `do_agg` on a row
set: the lambdas passed by `max/min/sum/average<Mixed>`, including the
`sum`/`average` lambdas that throw for timestamp columns. -/
def runAgg (s : RealmState) (column : Nat) (ct : ColType) (op : AggOp)
    (ids : List Nat) : Except Err (Option Rat) :=
  match op, ct with
  | AggOp.sumOp, ColType.cTimestamp =>
    Except.error (Err.unsupportedColumnType column "sum")
  | AggOp.avgOp, ColType.cTimestamp =>
    Except.error (Err.unsupportedColumnType column "average")
  | AggOp.maxOp, _ =>
    Except.ok ((listMax (nonNullCells s ids column)).map (fun x => (x : Rat)))
  | AggOp.minOp, _ =>
    Except.ok ((listMin (nonNullCells s ids column)).map (fun x => (x : Rat)))
  | AggOp.sumOp, _ =>
    Except.ok (some ((sumInts (nonNullCells s ids column) : Int) : Rat))
  | AggOp.avgOp, _ =>
    let l := nonNullCells s ids column
    Except.ok (if l.length = 0 then none
               else some ((sumInts l : Int) / (l.length : Rat)))

/-- Model of `Results::aggregate` together with the `max/min/sum/average<Mixed>`
wrappers: validate, null-table short-circuit, column bound check (note
the source's `column > get_column_count()`), column-type read (UB when
out of range), type dispatch, then the per-mode `do_agg`. -/
def aggregateM (r : ResultsD) (s : RealmState) (column : Nat) (op : AggOp) :
    Except Err (Option Rat × ResultsD) :=
  if isValid r s then
    if !r.hasTable then Except.ok (none, r)
    else if column > s.table.colTypes.length then
      Except.error (Err.outOfBounds column s.table.colTypes.length)
    else
      match s.table.colTypes.get? column with
      | none => Except.error Err.undefinedBehavior
      | some ct =>
        if ct = ColType.cString ∨ ct = ColType.cBinary ∨ ct = ColType.cBool then
          Except.error (Err.unsupportedColumnType column (opName op))
        else
          match r.mode with
          | Mode.empty => Except.ok (none, r)
          | Mode.table =>
            match runAgg s column ct op (attachedIds s) with
            | Except.error e => Except.error e
            | Except.ok v => Except.ok (v, r)
          | Mode.linkView =>
            let r1 := { r with query := getQuery r s, mode := Mode.query }
            let r2 := updateTableview r1 s true
            match runAgg s column ct op r2.tableView.ids with
            | Except.error e => Except.error e
            | Except.ok v => Except.ok (v, r2)
          | Mode.query =>
            let r2 := updateTableview r s true
            match runAgg s column ct op r2.tableView.ids with
            | Except.error e => Except.error e
            | Except.ok v => Except.ok (v, r2)
          | Mode.tableView =>
            let r2 := updateTableview r s true
            match runAgg s column ct op r2.tableView.ids with
            | Except.error e => Except.error e
            | Except.ok v => Except.ok (v, r2)
  else Except.error Err.invalidated

/-- The scalar types the generic (non-Mixed) aggregate shape is
instantiated at. -/
inductive NumTy
  | tInt
  | tFloat
  | tDouble
  | tTimestampTy
deriving DecidableEq, Repr

/-- Which `::sum<T, T>(Table&)` specializations exist
(`REALM_SUM_FUNCTION(Table, ...)`: int64 and float only). -/
def sumSpecTable : NumTy → Bool
  | NumTy.tInt => true
  | NumTy.tFloat => true
  | NumTy.tDouble => false
  | NumTy.tTimestampTy => false

/-- Which `::sum<T, T>(TableView&)` specializations exist
(`REALM_SUM_FUNCTION(TableView, ...)`: int64 and double only). -/
def sumSpecView : NumTy → Bool
  | NumTy.tInt => true
  | NumTy.tFloat => false
  | NumTy.tDouble => true
  | NumTy.tTimestampTy => false

/-- Model of `Results::sum<T>(size_t)`: the generic typed call shape.  The column
argument is ignored (the specializations all aggregate column 0); a
missing `::sum` specialization falls back to the primary template's
`throw "unsupported"`.  `LinkView` hits the `default:` unreachable hint. -/
def sumT (r : ResultsD) (s : RealmState) (ty : NumTy) :
    Except Err (Option Int × ResultsD) :=
  match r.mode with
  | Mode.linkView => Except.error Err.undefinedBehavior
  | Mode.empty => Except.ok (none, r)
  | Mode.table =>
    if sumSpecTable ty then Except.ok (some (sumInts (nonNullCells s (attachedIds s) 0)), r)
    else Except.error Err.rawUnsupported
  | Mode.query =>
    let r1 := updateTableview r s true
    if sumSpecView ty then Except.ok (some (sumInts (nonNullCells s r1.tableView.ids 0)), r1)
    else Except.error Err.rawUnsupported
  | Mode.tableView =>
    let r1 := updateTableview r s true
    if sumSpecView ty then Except.ok (some (sumInts (nonNullCells s r1.tableView.ids 0)), r1)
    else Except.error Err.rawUnsupported

/-- Model of `Results::average<T>(size_t)`: the generic typed call shape.  The
`::average` calls are commented out in the source; every reachable branch
returns "no value". -/
def averageT (r : ResultsD) (s : RealmState) (_ty : NumTy) :
    Except Err (Option Rat × ResultsD) :=
  match r.mode with
  | Mode.linkView => Except.error Err.undefinedBehavior
  | Mode.empty => Except.ok (none, r)
  | Mode.table => Except.ok (none, r)
  | Mode.query =>
    let r1 := updateTableview r s true
    Except.ok (none, r1)
  | Mode.tableView =>
    let r1 := updateTableview r s true
    Except.ok (none, r1)

/-- Representation invariant maintained by the construction and mutation
pipeline: a `LinkView`-mode collection has no distinct descriptor (no
constructor accepts one) and its link entries point at attached rows
(realm removes links to deleted rows); a `Never`-policy (frozen)
collection is always in `TableView` mode (`snapshot` establishes both). -/
def WF (r : ResultsD) (s : RealmState) : Prop :=
  (r.mode = Mode.linkView → r.distinct = none ∧ ∀ i ∈ r.linkView, rowAttached s i = true) ∧
  (r.updatePolicy = UpdatePolicy.never → r.mode = Mode.tableView)

/- ------------------------------------------------------------------ -/
/- Structural lemmas about the materialization pipeline.               -/
/- ------------------------------------------------------------------ -/

theorem insertSorted_length (le : Nat → Nat → Bool) (x : Nat) (l : List Nat) :
    (insertSorted le x l).length = l.length + 1 := by
  induction l with
  | nil => rfl
  | cons y ys ih =>
    simp only [insertSorted]
    split
    · rfl
    · simp [List.length_cons, ih]

theorem sortIds_length (sd : SortDesc) (s : RealmState) (l : List Nat) :
    (sortIds sd s l).length = l.length := by
  induction l with
  | nil => rfl
  | cons x xs ih =>
    simp only [sortIds, List.foldr_cons] at ih ⊢
    rw [insertSorted_length, ih, List.length_cons]

theorem syncView_matTV (q : QueryRep) (sd dd : Option SortDesc) (s : RealmState) :
    syncView (matTV q sd dd s) s = matTV q sd dd s := by
  cases sd <;> cases dd <;> rfl

theorem syncView_idem (tv : TableViewD) (s : RealmState) :
    syncView (syncView tv s) s = syncView tv s := by
  obtain ⟨ids, o, sd, dd⟩ := tv
  cases o <;> cases sd <;> cases dd <;> rfl

theorem matTV_length_of_no_distinct (q : QueryRep) (sd : Option SortDesc) (s : RealmState) :
    (matTV q sd none s).ids.length = (findAllIds q s).length := by
  cases sd with
  | none => rfl
  | some x => simp [matTV, findAllTV, applySortTV, sortIds_length]

theorem findAllIds_whereLinkView (lv : List Nat) (s : RealmState)
    (h : ∀ i ∈ lv, rowAttached s i = true) :
    findAllIds (whereLinkView lv) s = lv := by
  simp only [findAllIds, whereLinkView, Bool.and_true]
  exact List.filter_eq_self.mpr h

theorem tvPhase_tableView (r : ResultsD) (s : RealmState) (w : Bool) :
    (tvPhase r s w).tableView = syncView r.tableView s := by
  simp only [tvPhase]
  split <;> rfl

theorem tvPhase_mode (r : ResultsD) (s : RealmState) (w : Bool) :
    (tvPhase r s w).mode = r.mode := by
  simp only [tvPhase]
  split <;> rfl

theorem tvPhase_updatePolicy (r : ResultsD) (s : RealmState) (w : Bool) :
    (tvPhase r s w).updatePolicy = r.updatePolicy := by
  simp only [tvPhase]
  split <;> rfl

theorem tvPhase_hasTable (r : ResultsD) (s : RealmState) (w : Bool) :
    (tvPhase r s w).hasTable = r.hasTable := by
  simp only [tvPhase]
  split <;> rfl

theorem tvPhase_hasRealm (r : ResultsD) (s : RealmState) (w : Bool) :
    (tvPhase r s w).hasRealm = r.hasRealm := by
  simp only [tvPhase]
  split <;> rfl

theorem tvPhase_sort (r : ResultsD) (s : RealmState) (w : Bool) :
    (tvPhase r s w).sort = r.sort := by
  simp only [tvPhase]
  split <;> rfl

theorem tvPhase_distinct (r : ResultsD) (s : RealmState) (w : Bool) :
    (tvPhase r s w).distinct = r.distinct := by
  simp only [tvPhase]
  split <;> rfl

theorem tvPhase_linkView (r : ResultsD) (s : RealmState) (w : Bool) :
    (tvPhase r s w).linkView = r.linkView := by
  simp only [tvPhase]
  split <;> rfl

theorem tvPhase_query (r : ResultsD) (s : RealmState) (w : Bool) :
    (tvPhase r s w).query = r.query := by
  simp only [tvPhase]
  split <;> rfl

theorem updateTableview_never (r : ResultsD) (s : RealmState) (w : Bool)
    (h : r.updatePolicy = UpdatePolicy.never) : updateTableview r s w = r := by
  simp [updateTableview, h]

theorem updateTableview_query (r : ResultsD) (s : RealmState) (w : Bool)
    (hm : r.mode = Mode.query) (hp : r.updatePolicy = UpdatePolicy.auto) :
    updateTableview r s w =
      tvPhase { r with tableView := matTV r.query r.sort r.distinct s,
                       mode := Mode.tableView } s w := by
  simp only [updateTableview, hp]
  rw [hm]
  rfl

theorem updateTableview_tableView (r : ResultsD) (s : RealmState) (w : Bool)
    (hm : r.mode = Mode.tableView) (hp : r.updatePolicy = UpdatePolicy.auto) :
    updateTableview r s w = tvPhase r s w := by
  simp only [updateTableview, hp]
  rw [hm]
  rfl

theorem tvPhase_view_fix (r : ResultsD) (s : RealmState) (w : Bool) :
    syncView (tvPhase r s w).tableView s = (tvPhase r s w).tableView := by
  rw [tvPhase_tableView]
  exact syncView_idem _ _

theorem updateTableview_updatePolicy (r : ResultsD) (s : RealmState) (w : Bool) :
    (updateTableview r s w).updatePolicy = r.updatePolicy := by
  simp only [updateTableview]
  split
  · rfl
  · split <;> simp [tvPhase_updatePolicy]

theorem updateTableview_hasTable (r : ResultsD) (s : RealmState) (w : Bool) :
    (updateTableview r s w).hasTable = r.hasTable := by
  simp only [updateTableview]
  split
  · rfl
  · split <;> simp [tvPhase_hasTable]

theorem updateTableview_hasRealm (r : ResultsD) (s : RealmState) (w : Bool) :
    (updateTableview r s w).hasRealm = r.hasRealm := by
  simp only [updateTableview]
  split
  · rfl
  · split <;> simp [tvPhase_hasRealm]

theorem updateTableview_linkView (r : ResultsD) (s : RealmState) (w : Bool) :
    (updateTableview r s w).linkView = r.linkView := by
  simp only [updateTableview]
  split
  · rfl
  · split <;> simp [tvPhase_linkView]

theorem isValid_updateTableview (r : ResultsD) (s : RealmState) (w : Bool) :
    isValid (updateTableview r s w) s = isValid r s := by
  simp [isValid, updateTableview_hasTable]

theorem updateTableview_fix (r : ResultsD) (s : RealmState) (w : Bool)
    (hp : r.updatePolicy = UpdatePolicy.auto)
    (hm : r.mode = Mode.query ∨ r.mode = Mode.tableView) :
    (updateTableview r s w).mode = Mode.tableView ∧
    syncView (updateTableview r s w).tableView s = (updateTableview r s w).tableView := by
  rcases hm with hm | hm
  · rw [updateTableview_query r s w hm hp]
    exact ⟨by rw [tvPhase_mode], tvPhase_view_fix _ _ _⟩
  · rw [updateTableview_tableView r s w hm hp]
    exact ⟨by rw [tvPhase_mode, hm], tvPhase_view_fix _ _ _⟩

theorem updateTableview_view_query (r : ResultsD) (s : RealmState) (w : Bool)
    (hm : r.mode = Mode.query) (hp : r.updatePolicy = UpdatePolicy.auto) :
    (updateTableview r s w).tableView = matTV r.query r.sort r.distinct s := by
  rw [updateTableview_query r s w hm hp, tvPhase_tableView]
  exact syncView_matTV _ _ _ _

theorem updateTableview_view_tableView (r : ResultsD) (s : RealmState) (w : Bool)
    (hm : r.mode = Mode.tableView) (hp : r.updatePolicy = UpdatePolicy.auto) :
    (updateTableview r s w).tableView = syncView r.tableView s := by
  rw [updateTableview_tableView r s w hm hp, tvPhase_tableView]

/- ------------------------------------------------------------------ -/
/- `sizeRes` branch characterizations.                                 -/
/- ------------------------------------------------------------------ -/

theorem sizeRes_empty (r : ResultsD) (s : RealmState)
    (hv : isValid r s = true) (hm : r.mode = Mode.empty) :
    sizeRes r s = Except.ok (0, r) := by
  simp [sizeRes, hv, hm]

theorem sizeRes_table (r : ResultsD) (s : RealmState)
    (hv : isValid r s = true) (hm : r.mode = Mode.table) :
    sizeRes r s = Except.ok (liveCount s, r) := by
  simp [sizeRes, hv, hm]

theorem sizeRes_linkView (r : ResultsD) (s : RealmState)
    (hv : isValid r s = true) (hm : r.mode = Mode.linkView) :
    sizeRes r s = Except.ok (r.linkView.length, r) := by
  simp [sizeRes, hv, hm]

theorem sizeRes_tableView_never (r : ResultsD) (s : RealmState)
    (hv : isValid r s = true) (hm : r.mode = Mode.tableView)
    (hp : r.updatePolicy = UpdatePolicy.never) :
    sizeRes r s = Except.ok (r.tableView.ids.length, r) := by
  simp [sizeRes, hv, hm, updateTableview_never r s true hp]

theorem sizeRes_query_nodistinct (r : ResultsD) (s : RealmState)
    (hv : isValid r s = true) (hm : r.mode = Mode.query) (hd : r.distinct = none) :
    sizeRes r s = Except.ok ((findAllIds r.query s).length, r) := by
  simp [sizeRes, hv, hm, hd]

theorem sizeRes_ok_isValid (r : ResultsD) (s : RealmState) (x : Nat × ResultsD)
    (h : sizeRes r s = Except.ok x) : isValid r s = true := by
  by_contra hv
  simp [sizeRes, eq_false_of_ne_true hv] at h

theorem sizeRes_materialized (r : ResultsD) (s : RealmState) (w : Bool)
    (hv : isValid r s = true) (hp : r.updatePolicy = UpdatePolicy.auto)
    (hm : r.mode = Mode.query ∨ r.mode = Mode.tableView) :
    sizeRes (updateTableview r s w) s =
      Except.ok ((updateTableview r s w).tableView.ids.length,
                 tvPhase (updateTableview r s w) s true) := by
  have h2 := updateTableview_fix r s w hp hm
  have hvalid : isValid (updateTableview r s w) s = true := by
    rw [isValid_updateTableview]; exact hv
  have hpol : (updateTableview r s w).updatePolicy = UpdatePolicy.auto := by
    rw [updateTableview_updatePolicy]; exact hp
  rw [sizeRes]
  rw [hvalid]
  simp only [if_true]
  rw [h2.1]
  rw [updateTableview_tableView _ s true h2.1 hpol, tvPhase_tableView, h2.2]

theorem throwSized_materialized (r : ResultsD) (s : RealmState) (w : Bool) (i : Nat)
    (hv : isValid r s = true) (hp : r.updatePolicy = UpdatePolicy.auto)
    (hm : r.mode = Mode.query ∨ r.mode = Mode.tableView) :
    throwSized (updateTableview r s w) s i =
      Except.error (Err.outOfBounds i (updateTableview r s w).tableView.ids.length) := by
  rw [throwSized, sizeRes_materialized r s w hv hp hm]

/- ------------------------------------------------------------------ -/
/- Concrete fixtures for witnesses and counterexamples.                -/
/- ------------------------------------------------------------------ -/

/-- The unconditioned match-all query. -/
def q0 : QueryRep := ⟨fun _ => true, none⟩

/-- A one-cell attached row. -/
def row1 (v : Int) : TRow := ⟨[some v], true⟩

/-- A one-int-column table with rows 1 and 2. -/
def tbl2 : TableData := ⟨[ColType.cInt], [row1 1, row1 2]⟩

/-- State over `tbl2`, outside a write transaction. -/
def st2 : RealmState := { table := tbl2 }

/-- State over `tbl2`, inside a write transaction. -/
def st2w : RealmState := { table := tbl2, inTransaction := true }

/-- A one-int-column table with the single row 2. -/
def tblA : TableData := ⟨[ColType.cInt], [row1 2]⟩

/-- State over `tblA`, outside a write transaction. -/
def stA : RealmState := { table := tblA }

/-- A `Table`-mode collection. -/
def rTable : ResultsD := { hasRealm := true, hasTable := true, mode := Mode.table }

/-- A `Query`-mode collection over the match-all query. -/
def rQuery : ResultsD := mkQueryResults q0 none none

/-- A frozen (snapshotted) collection: the result of
`snapshotRes rQuery st2`. -/
def rFrozen2 : ResultsD :=
  { hasRealm := true, hasTable := true, mode := Mode.tableView, query := q0,
    tableView := ⟨[0, 1], some q0, none, none⟩, linkView := [], sort := none,
    distinct := none, notifier := false, updatePolicy := UpdatePolicy.never,
    hasUsedTableView := true, wantsBackgroundUpdates := true }

/-- A one-column distinct/sort descriptor. -/
def dd0 : SortDesc := [(0, true)]

/-- A small concrete table view over `tbl2`. -/
def tvW : TableViewD := ⟨[0], none, none, none⟩

/- ------------------------------------------------------------------ -/
/- Claim theorems.                                                     -/
/- ------------------------------------------------------------------ -/

/-- C10: `Internal::set_table_view` requires a non-Frozen policy (the
assertion), always leaves the collection in MaterializedView mode with
the consumed flag cleared and the new view adopted, and when the
collection was already in MaterializedView mode with an unconsumed view
it turns "wants background updates" off (otherwise the flag keeps its
old value). -/
theorem setTableView_spec (r : ResultsD) (tv : TableViewD) :
    (r.updatePolicy = UpdatePolicy.never → setTableView r tv = none) ∧
    (r.updatePolicy ≠ UpdatePolicy.never →
      ∃ r1, setTableView r tv = some r1 ∧
        r1.mode = Mode.tableView ∧
        r1.hasUsedTableView = false ∧
        r1.tableView = tv ∧
        (r.mode = Mode.tableView → r.hasUsedTableView = false →
          r1.wantsBackgroundUpdates = false) ∧
        (r.mode ≠ Mode.tableView → r1.wantsBackgroundUpdates = r.wantsBackgroundUpdates)) := by
  constructor
  · intro h
    simp [setTableView, h]
  · intro h
    simp only [setTableView, if_neg h]
    refine ⟨_, rfl, rfl, rfl, rfl, ?_, ?_⟩
    · intro hm hu
      simp [hm, hu]
    · intro hm
      simp [hm]

/-- Witness for C10 at a concrete Auto-policy Table-mode collection. -/
theorem setTableView_spec_witness :
    (setTableView rTable tvW).isSome = true ∧
    Option.map (fun x => x.mode) (setTableView rTable tvW) = some Mode.tableView ∧
    Option.map (fun x => x.hasUsedTableView) (setTableView rTable tvW) = some false := by
  obtain ⟨r1, h1, h2, h3, -⟩ := (setTableView_spec rTable tvW).2 (by decide)
  rw [h1]
  simp [h2, h3]

/-- C9: a collection in Empty mode with no backing table answers every
aggregate call — both the Mixed shape and the generic typed shape — with
"no value" for every column index and operation, raising nothing: the
null-table short-circuit precedes the column bound check and the type
dispatch. -/
theorem aggregate_no_table (r : ResultsD) (s : RealmState) (column : Nat) (op : AggOp)
    (ty : NumTy) (hm : r.mode = Mode.empty) (ht : r.hasTable = false) :
    aggregateM r s column op = Except.ok (none, r) ∧
    sumT r s ty = Except.ok (none, r) ∧
    averageT r s ty = Except.ok (none, r) := by
  have hv : isValid r s = true := by simp [isValid, ht]
  refine ⟨?_, ?_, ?_⟩
  · simp [aggregateM, hv, ht]
  · simp [sumT, hm]
  · simp [averageT, hm]

/-- Witness for C9 at the default-constructed Results and an absurdly
large column index. -/
theorem aggregate_no_table_witness :
    aggregateM {} stA 7 AggOp.sumOp = Except.ok (none, ({} : ResultsD)) :=
  (aggregate_no_table {} stA 7 AggOp.sumOp NumTy.tInt rfl rfl).1

/-- C6 counterexample: on a frozen (snapshotted) collection with no
registered notifier, in a writable realm outside a write transaction,
`prepare_async` raises the generic logic error, not the
InvalidTransaction kind the claim requires for all three refusal
cases. -/
theorem prepareAsync_frozen_counterexample :
    prepareAsync rFrozen2 st2 =
      Except.error (Err.logicError "Cannot create asynchronous query for snapshotted Results.") := rfl

/-- C6 amended: registration is idempotent (an already-registered
notifier returns immediately), the read-only and mid-write refusals
raise InvalidTransaction, but the Frozen refusal raises a generic logic
error; otherwise registration succeeds and records the notifier. -/
theorem prepareAsync_spec (r : ResultsD) (s : RealmState) :
    (r.notifier = true → prepareAsync r s = Except.ok r) ∧
    (r.notifier = false → s.readOnly = true →
      prepareAsync r s = Except.error
        (Err.invalidTransaction "Cannot create asynchronous query for read-only Realms")) ∧
    (r.notifier = false → s.readOnly = false → s.inTransaction = true →
      prepareAsync r s = Except.error
        (Err.invalidTransaction "Cannot create asynchronous query while in a write transaction")) ∧
    (r.notifier = false → s.readOnly = false → s.inTransaction = false →
      r.updatePolicy = UpdatePolicy.never →
      prepareAsync r s = Except.error
        (Err.logicError "Cannot create asynchronous query for snapshotted Results.")) ∧
    (r.notifier = false → s.readOnly = false → s.inTransaction = false →
      r.updatePolicy = UpdatePolicy.auto →
      prepareAsync r s = Except.ok { r with wantsBackgroundUpdates := true, notifier := true }) := by
  refine ⟨?_, ?_, ?_, ?_, ?_⟩
  · intro h1
    simp [prepareAsync, h1]
  · intro h1 h2
    simp [prepareAsync, h1, h2]
  · intro h1 h2 h3
    simp [prepareAsync, h1, h2, h3]
  · intro h1 h2 h3 h4
    simp [prepareAsync, h1, h2, h3, h4]
  · intro h1 h2 h3 h4
    simp [prepareAsync, h1, h2, h3, h4]

/-- Witness for C6 amended: successful registration on a live
Query-mode collection. -/
theorem prepareAsync_spec_witness :
    prepareAsync rQuery st2 =
      Except.ok { rQuery with wantsBackgroundUpdates := true, notifier := true } :=
  (prepareAsync_spec rQuery st2).2.2.2.2 rfl rfl rfl rfl

/-- C7 counterexample: in Empty mode, `clear()` outside any write
transaction returns successfully (a no-op) instead of raising
InvalidTransaction — the Empty branch returns before `validate_write`. -/
theorem clear_empty_counterexample :
    clearRes ({} : ResultsD) st2 = Except.ok (({} : ResultsD), st2) ∧
    st2.inTransaction = false := ⟨rfl, rfl⟩

/-- C7 amended: in every mode except Empty, `clear()` without an active
write transaction raises InvalidTransaction (leaving no mutated state);
in Empty mode it is a validation-free no-op. -/
theorem clear_requires_write (r : ResultsD) (s : RealmState) :
    (r.mode = Mode.empty → clearRes r s = Except.ok (r, s)) ∧
    (r.mode ≠ Mode.empty → isValid r s = true → (r.hasRealm && s.inTransaction) = false →
      clearRes r s = Except.error (Err.invalidTransaction "Must be in a write transaction")) := by
  constructor
  · intro h
    simp [clearRes, h]
  · intro hm hv hw
    cases hmode : r.mode
    · exact absurd hmode hm
    all_goals simp [clearRes, hmode, hv, hw]

/-- Witness for C7 amended: Table-mode clear outside a write raises. -/
theorem clear_requires_write_witness :
    clearRes rTable st2 = Except.error (Err.invalidTransaction "Must be in a write transaction") :=
  (clear_requires_write rTable st2).2 (by decide) rfl rfl

/-- C3 (code bug): the aggregate column bound check is `column >
get_column_count()`, not `>=`.  Over a one-column table, column index 1
(equal to the column count, hence out of bounds) slips past the check
into an out-of-range `get_column_type` read (undefined behavior) instead
of raising OutOfBounds; only index 2 raises OutOfBounds carrying
(2, 1). -/
theorem aggregate_column_bound_off_by_one :
    aggregateM rTable stA 1 AggOp.maxOp = Except.error Err.undefinedBehavior ∧
    aggregateM rTable stA 2 AggOp.maxOp = Except.error (Err.outOfBounds 2 1) := ⟨rfl, rfl⟩

/-- C4 (code bug): the generic typed sum lacks the `(Table, double)` and
`(TableView, float)` specializations, so `sum<double>` on a Table-mode
collection and `sum<float>` on a Query-mode collection hit the primary
template's raw `throw "unsupported"` instead of returning a numeric
value; the instantiated combinations (e.g. int) do return the sum, as
does the Mixed-shape sum. -/
theorem sum_generic_missing_specializations :
    sumT rTable stA NumTy.tDouble = Except.error Err.rawUnsupported ∧
    sumT rQuery stA NumTy.tFloat = Except.error Err.rawUnsupported ∧
    sumT rTable stA NumTy.tInt = Except.ok (some 2, rTable) ∧
    (aggregateM rTable stA 0 AggOp.sumOp).map (fun p => p.1) = Except.ok (some 2) ∧
    aggregateM rTable { table := ⟨[ColType.cString], [row1 0]⟩ } 0 AggOp.sumOp =
      Except.error (Err.unsupportedColumnType 0 "sum") :=
  ⟨rfl, rfl, rfl, rfl, rfl⟩

/-- C5 (code bug): on a Table-mode collection over a one-row int column
with value 2 (one non-null contributing row), the generic typed
`average` returns "no value" (its computation is commented out in the
source), while the Mixed-shape `average` over the same data returns the
mean 2. -/
theorem average_generic_stubbed :
    averageT rTable stA NumTy.tInt = Except.ok (none, rTable) ∧
    (aggregateM rTable stA 0 AggOp.avgOp).map (fun p => p.1) = Except.ok (some 2) := by
  refine ⟨rfl, ?_⟩
  have h1 : aggregateM rTable stA 0 AggOp.avgOp =
      Except.ok (some (((2 : Int) : Rat) / ((1 : Nat) : Rat)), rTable) := rfl
  rw [h1]
  norm_num [Except.map]

/-- C1: a successful `snapshot()` of a non-Empty-mode collection leaves
a Frozen (`Never`-policy) MaterializedView-mode collection whose
reported `size()` is permanently its view's row count: it is the same in
every later state in which the collection is valid (so no committed
write that adds or removes matching rows can change it), and `clear()`
inside a write removes the matched rows from storage through a private
copy while returning the frozen collection itself unchanged. -/
theorem snapshot_freezes_size (r0 r : ResultsD) (s : RealmState)
    (hwf : WF r0 s) (hsnap : snapshotRes r0 s = Except.ok r) (hm : r0.mode ≠ Mode.empty) :
    r.updatePolicy = UpdatePolicy.never ∧
    r.mode = Mode.tableView ∧
    (∀ s1, isValid r s1 = true → sizeRes r s1 = Except.ok (r.tableView.ids.length, r)) ∧
    (∀ s1, isValid r s1 = true → r.hasRealm = true → s1.inTransaction = true →
      clearRes r s1 = Except.ok (r, detachRows r.tableView.ids s1)) := by
  have hv : isValid r0 s = true := by
    by_contra hv
    simp [snapshotRes, eq_false_of_ne_true hv] at hsnap
  have hmode : r.updatePolicy = UpdatePolicy.never ∧ r.mode = Mode.tableView := by
    rw [snapshotRes, if_pos hv] at hsnap
    cases hm0 : r0.mode
    case empty => exact absurd hm0 hm
    case table =>
      rw [hm0] at hsnap
      simp only [Except.ok.injEq] at hsnap
      subst hsnap
      have hp : r0.updatePolicy = UpdatePolicy.auto := by
        cases hp0 : r0.updatePolicy
        · rfl
        · exact absurd (hwf.2 hp0) (by rw [hm0]; intro h; exact Mode.noConfusion h)
      exact ⟨rfl, (updateTableview_fix
        { r0 with query := getQuery r0 s, mode := Mode.query } s false hp (Or.inl rfl)).1⟩
    case linkView =>
      rw [hm0] at hsnap
      simp only [Except.ok.injEq] at hsnap
      subst hsnap
      have hp : r0.updatePolicy = UpdatePolicy.auto := by
        cases hp0 : r0.updatePolicy
        · rfl
        · exact absurd (hwf.2 hp0) (by rw [hm0]; intro h; exact Mode.noConfusion h)
      exact ⟨rfl, (updateTableview_fix
        { r0 with query := getQuery r0 s, mode := Mode.query } s false hp (Or.inl rfl)).1⟩
    case query =>
      rw [hm0] at hsnap
      simp only [Except.ok.injEq] at hsnap
      subst hsnap
      cases hp0 : r0.updatePolicy
      · exact ⟨rfl, (updateTableview_fix _ s false hp0 (Or.inl hm0)).1⟩
      · exact absurd (hwf.2 hp0) (by rw [hm0]; intro h; exact Mode.noConfusion h)
    case tableView =>
      rw [hm0] at hsnap
      simp only [Except.ok.injEq] at hsnap
      subst hsnap
      cases hp0 : r0.updatePolicy
      · exact ⟨rfl, (updateTableview_fix _ s false hp0 (Or.inr hm0)).1⟩
      · refine ⟨rfl, ?_⟩
        rw [updateTableview_never _ s false hp0]
        exact hm0
  obtain ⟨hnever, htv⟩ := hmode
  refine ⟨hnever, htv, ?_, ?_⟩
  · intro s1 hv1
    exact sizeRes_tableView_never r s1 hv1 htv hnever
  · intro s1 hv1 hrealm hin
    have hw : (r.hasRealm && s1.inTransaction) = true := by rw [hrealm, hin]; rfl
    simp only [clearRes]
    rw [htv]
    simp [hv1, hw, updateTableview_never r s1 true hnever, hnever]

/-- Witness for C1: the concrete snapshot of the match-all query over a
two-row table; clearing inside a write detaches both rows while the
frozen collection still reports size 2 in the post-deletion state. -/
theorem snapshot_freezes_size_witness :
    clearRes rFrozen2 st2w = Except.ok (rFrozen2, detachRows rFrozen2.tableView.ids st2w) ∧
    sizeRes rFrozen2 (detachRows rFrozen2.tableView.ids st2w) =
      Except.ok (rFrozen2.tableView.ids.length, rFrozen2) ∧
    rFrozen2.tableView.ids.length = 2 := by
  have hwf : WF rQuery st2 := by
    constructor
    · intro h
      exact absurd h (by decide)
    · intro h
      exact absurd h (by decide)
  have h := snapshot_freezes_size rQuery rFrozen2 st2 hwf rfl (by decide)
  exact ⟨h.2.2.2 st2w rfl rfl rfl, h.2.2.1 _ rfl, rfl⟩

/-- C2 counterexample: `distinct()` on a Query-mode receiver mutates the
receiver: it materializes it in place, changing its mode from Query to
MaterializedView (the claim asserts the receiver's mode is unchanged by
filter/sort/distinct). -/
theorem distinct_mutates_receiver_mode :
    rQuery.mode = Mode.query ∧
    (distinctOp rQuery st2 dd0).map (fun p => p.2.mode) = Except.ok Mode.tableView :=
  ⟨rfl, rfl⟩

/-- C2 amended: `filter()` and `sort()` are const — the receiver is
untouched and the result is a fresh Query-mode collection built from the
receiver's reconstructed query; `distinct()` returns a fresh collection
built from the receiver's materialized view and may materialize the
receiver in place (its mode can become MaterializedView), but it never
changes the receiver's reported `size()`. -/
theorem transformations_spec (r : ResultsD) (s : RealmState) (sd u : SortDesc)
    (q2 : QueryRep) (hwf : WF r s) (hv : isValid r s = true) :
    sortOp r s sd = Except.ok (mkQueryResults (getQuery r s) (some sd) r.distinct) ∧
    filterOp r s q2 = Except.ok (mkQueryResults (andQuery (getQuery r s) q2) r.sort r.distinct) ∧
    (∀ res r1, distinctOp r s u = Except.ok (res, r1) →
      (r1.mode = r.mode ∨ r1.mode = Mode.tableView) ∧
      ∃ n a b, sizeRes r s = Except.ok (n, a) ∧ sizeRes r1 s = Except.ok (n, b)) := by
  refine ⟨by simp [sortOp, hv], by simp [filterOp, hv], ?_⟩
  intro res r1 hdis
  rw [distinctOp, getTableviewOp, if_pos hv] at hdis
  cases hm : r.mode
  case empty =>
    rw [hm] at hdis
    simp only [Except.ok.injEq, Prod.mk.injEq] at hdis
    obtain ⟨-, hr1⟩ := hdis
    subst hr1
    exact ⟨Or.inl hm,
      ⟨0, r, r, sizeRes_empty r s hv hm, sizeRes_empty r s hv hm⟩⟩
  case table =>
    rw [hm] at hdis
    simp only [Except.ok.injEq, Prod.mk.injEq] at hdis
    obtain ⟨-, hr1⟩ := hdis
    subst hr1
    exact ⟨Or.inl hm,
      ⟨liveCount s, r, r, sizeRes_table r s hv hm, sizeRes_table r s hv hm⟩⟩
  case linkView =>
    obtain ⟨hd, hatt⟩ := hwf.1 hm
    cases hpol : r.updatePolicy
    case never =>
      exact absurd (hwf.2 hpol) (by rw [hm]; intro h; exact Mode.noConfusion h)
    case auto => ?_
    rw [hm] at hdis
    cases hsort : r.sort
    case none =>
      have hul : updateLinkview r s = (true, r) := by
        simp [updateLinkview, hsort, hd]
      rw [hul] at hdis
      simp only [Except.ok.injEq, Prod.mk.injEq] at hdis
      obtain ⟨-, hr1⟩ := hdis
      subst hr1
      exact ⟨Or.inl hm,
        ⟨r.linkView.length, r, r, sizeRes_linkView r s hv hm, sizeRes_linkView r s hv hm⟩⟩
    case some sd1 =>
      have hul : updateLinkview r s =
          (false, updateTableview { r with query := getQuery r s, mode := Mode.query } s true) := by
        simp [updateLinkview, hsort]
      rw [hul] at hdis
      simp only [Except.ok.injEq, Prod.mk.injEq] at hdis
      obtain ⟨-, hr1⟩ := hdis
      subst hr1
      have hpA : ({ r with query := getQuery r s, mode := Mode.query } : ResultsD).updatePolicy
          = UpdatePolicy.auto := hpol
      have hBmode := (updateTableview_fix
        { r with query := getQuery r s, mode := Mode.query } s true hpA (Or.inl rfl)).1
      have hBpol : (updateTableview { r with query := getQuery r s, mode := Mode.query } s
          true).updatePolicy = UpdatePolicy.auto := by
        rw [updateTableview_updatePolicy]; exact hpol
      have hBv : isValid (updateTableview { r with query := getQuery r s, mode := Mode.query } s
          true) s = true := by
        rw [isValid_updateTableview]; exact hv
      have hq : getQuery r s = whereLinkView r.linkView := by
        simp [getQuery, hm]
      have hBview : (updateTableview { r with query := getQuery r s, mode := Mode.query } s
          true).tableView = matTV (getQuery r s) (some sd1) none s := by
        rw [updateTableview_view_query _ s true rfl hpA]
        show matTV (getQuery r s) r.sort r.distinct s = _
        rw [hsort, hd]
      have hlen : (updateTableview
          (updateTableview { r with query := getQuery r s, mode := Mode.query } s true) s
          true).tableView.ids.length = r.linkView.length := by
        rw [updateTableview_view_tableView _ s true hBmode hBpol, hBview, syncView_matTV,
          matTV_length_of_no_distinct, hq, findAllIds_whereLinkView _ _ hatt]
      have hsz := sizeRes_materialized _ s true hBv hBpol (Or.inr hBmode)
      rw [hlen] at hsz
      exact ⟨Or.inr (updateTableview_fix _ s true hBpol (Or.inr hBmode)).1,
        ⟨r.linkView.length, r, _, sizeRes_linkView r s hv hm, hsz⟩⟩
  case query =>
    cases hpol : r.updatePolicy
    case never =>
      exact absurd (hwf.2 hpol) (by rw [hm]; intro h; exact Mode.noConfusion h)
    case auto => ?_
    rw [hm] at hdis
    simp only [Except.ok.injEq, Prod.mk.injEq] at hdis
    obtain ⟨-, hr1⟩ := hdis
    subst hr1
    refine ⟨Or.inr (updateTableview_fix r s true hpol (Or.inl hm)).1, ?_⟩
    cases hd2 : r.distinct
    case none =>
      have hlen : (updateTableview r s true).tableView.ids.length
          = (findAllIds r.query s).length := by
        rw [updateTableview_view_query r s true hm hpol, hd2, matTV_length_of_no_distinct]
      have hsz := sizeRes_materialized r s true hv hpol (Or.inl hm)
      rw [hlen] at hsz
      exact ⟨(findAllIds r.query s).length, r, _,
        sizeRes_query_nodistinct r s hv hm hd2, hsz⟩
    case some dd2 =>
      refine ⟨(updateTableview r s true).tableView.ids.length, updateTableview r s true,
        tvPhase (updateTableview r s true) s true,
        ?_, sizeRes_materialized r s true hv hpol (Or.inl hm)⟩
      simp [sizeRes, hv, hm, hd2]
  case tableView =>
    rw [hm] at hdis
    simp only [Except.ok.injEq, Prod.mk.injEq] at hdis
    obtain ⟨-, hr1⟩ := hdis
    subst hr1
    cases hpol : r.updatePolicy
    case auto =>
      refine ⟨Or.inr (updateTableview_fix r s true hpol (Or.inr hm)).1, ?_⟩
      refine ⟨(updateTableview r s true).tableView.ids.length, updateTableview r s true,
        tvPhase (updateTableview r s true) s true,
        ?_, sizeRes_materialized r s true hv hpol (Or.inr hm)⟩
      simp [sizeRes, hv, hm]
    case never =>
      rw [updateTableview_never r s true hpol]
      refine ⟨Or.inl hm, ?_⟩
      exact ⟨r.tableView.ids.length, r, r,
        sizeRes_tableView_never r s hv hm hpol, sizeRes_tableView_never r s hv hm hpol⟩

/-- Witness for C2 amended: `sort` on a Table-mode collection. -/
theorem transformations_spec_witness :
    sortOp rTable st2 dd0 =
      Except.ok (mkQueryResults (getQuery rTable st2) (some dd0) rTable.distinct) := by
  have hwf : WF rTable st2 := by
    constructor
    · intro h
      exact absurd h (by decide)
    · intro h
      exact absurd h (by decide)
  exact (transformations_spec rTable st2 dd0 dd0 q0 hwf rfl).1

/-- C8: for every valid, well-formed collection, `get(i)` raises
OutOfBounds carrying exactly `(i, size())` whenever `i >= size()`, and
returns an element (raising nothing) whenever `i < size()`. -/
theorem get_bounds (r : ResultsD) (s : RealmState) (i n : Nat) (ra : ResultsD)
    (hwf : WF r s) (hs : sizeRes r s = Except.ok (n, ra)) :
    (i < n → ∃ e r2, getRes r s i = Except.ok (e, r2)) ∧
    (n ≤ i → getRes r s i = Except.error (Err.outOfBounds i n)) := by
  have hv : isValid r s = true := sizeRes_ok_isValid r s _ hs
  cases hm : r.mode
  case empty =>
    rw [sizeRes_empty r s hv hm] at hs
    simp only [Except.ok.injEq, Prod.mk.injEq] at hs
    obtain ⟨hn, -⟩ := hs
    subst hn
    constructor
    · intro hi
      exact absurd hi (Nat.not_lt_zero i)
    · intro _
      simp [getRes, hv, hm, throwSized, sizeRes_empty r s hv hm]
  case table =>
    rw [sizeRes_table r s hv hm] at hs
    simp only [Except.ok.injEq, Prod.mk.injEq] at hs
    obtain ⟨hn, -⟩ := hs
    subst hn
    constructor
    · intro hi
      exact ⟨_, _, by simp [getRes, hv, hm, hi]; exact ⟨rfl, rfl⟩⟩
    · intro hni
      have hlt : ¬ i < liveCount s := by omega
      simp [getRes, hv, hm, hlt, throwSized, sizeRes_table r s hv hm]
  case linkView =>
    obtain ⟨hd, hatt⟩ := hwf.1 hm
    rw [sizeRes_linkView r s hv hm] at hs
    simp only [Except.ok.injEq, Prod.mk.injEq] at hs
    obtain ⟨hn, -⟩ := hs
    subst hn
    cases hsort : r.sort
    case none =>
      have hul : updateLinkview r s = (true, r) := by
        simp [updateLinkview, hsort, hd]
      constructor
      · intro hi
        exact ⟨_, _, by simp [getRes, hv, hm, hul, hi]; exact ⟨rfl, rfl⟩⟩
      · intro hni
        have hlt : ¬ i < r.linkView.length := by omega
        simp [getRes, hv, hm, hul, hlt, throwSized, sizeRes_linkView r s hv hm]
    case some sd1 =>
      cases hpol : r.updatePolicy
      case never =>
        exact absurd (hwf.2 hpol) (by rw [hm]; intro h; exact Mode.noConfusion h)
      case auto => ?_
      have hul : updateLinkview r s =
          (false, updateTableview { r with query := getQuery r s, mode := Mode.query } s true) := by
        simp [updateLinkview, hsort]
      have hpA : ({ r with query := getQuery r s, mode := Mode.query } : ResultsD).updatePolicy
          = UpdatePolicy.auto := hpol
      have hBmode := (updateTableview_fix
        { r with query := getQuery r s, mode := Mode.query } s true hpA (Or.inl rfl)).1
      have hBpol : (updateTableview { r with query := getQuery r s, mode := Mode.query } s
          true).updatePolicy = UpdatePolicy.auto := by
        rw [updateTableview_updatePolicy]; exact hpol
      have hBv : isValid (updateTableview { r with query := getQuery r s, mode := Mode.query } s
          true) s = true := by
        rw [isValid_updateTableview]; exact hv
      have hq : getQuery r s = whereLinkView r.linkView := by
        simp [getQuery, hm]
      have hBview : (updateTableview { r with query := getQuery r s, mode := Mode.query } s
          true).tableView = matTV (getQuery r s) (some sd1) none s := by
        rw [updateTableview_view_query _ s true rfl hpA]
        show matTV (getQuery r s) r.sort r.distinct s = _
        rw [hsort, hd]
      have hlen2 : (updateTableview
          (updateTableview { r with query := getQuery r s, mode := Mode.query } s true) s
          true).tableView.ids.length = r.linkView.length := by
        rw [updateTableview_view_tableView _ s true hBmode hBpol, hBview, syncView_matTV,
          matTV_length_of_no_distinct, hq, findAllIds_whereLinkView _ _ hatt]
      constructor
      · intro hi
        have hlt : ¬ ((updateTableview
            (updateTableview { r with query := getQuery r s, mode := Mode.query } s true) s
            true).tableView.ids.length ≤ i) := by
          rw [hlen2]; omega
        exact ⟨_, _, by simp [getRes, hv, hm, hul, hlt]; exact ⟨rfl, rfl⟩⟩
      · intro hni
        have hle : (updateTableview
            (updateTableview { r with query := getQuery r s, mode := Mode.query } s true) s
            true).tableView.ids.length ≤ i := by
          rw [hlen2]; omega
        have hth : throwSized (updateTableview
            (updateTableview { r with query := getQuery r s, mode := Mode.query } s true) s true)
            s i = Except.error (Err.outOfBounds i r.linkView.length) := by
          rw [throwSized_materialized _ s true i hBv hBpol (Or.inr hBmode), hlen2]
        simp [getRes, hv, hm, hul, hle, hth]
  case query =>
    cases hpol : r.updatePolicy
    case never =>
      exact absurd (hwf.2 hpol) (by rw [hm]; intro h; exact Mode.noConfusion h)
    case auto => ?_
    cases hd2 : r.distinct
    case none =>
      rw [sizeRes_query_nodistinct r s hv hm hd2] at hs
      simp only [Except.ok.injEq, Prod.mk.injEq] at hs
      obtain ⟨hn, -⟩ := hs
      subst hn
      have hlen : (updateTableview r s true).tableView.ids.length
          = (findAllIds r.query s).length := by
        rw [updateTableview_view_query r s true hm hpol, hd2, matTV_length_of_no_distinct]
      constructor
      · intro hi
        have hlt : ¬ ((updateTableview r s true).tableView.ids.length ≤ i) := by
          rw [hlen]; omega
        exact ⟨_, _, by simp [getRes, hv, hm, hlt]; exact ⟨rfl, rfl⟩⟩
      · intro hni
        have hle : (updateTableview r s true).tableView.ids.length ≤ i := by
          rw [hlen]; omega
        have hth : throwSized (updateTableview r s true) s i
            = Except.error (Err.outOfBounds i (findAllIds r.query s).length) := by
          rw [throwSized_materialized r s true i hv hpol (Or.inl hm), hlen]
        simp [getRes, hv, hm, hle, hth]
    case some dd2 =>
      have hsz : sizeRes r s = Except.ok ((updateTableview r s true).tableView.ids.length,
          updateTableview r s true) := by
        simp [sizeRes, hv, hm, hd2]
      rw [hsz] at hs
      simp only [Except.ok.injEq, Prod.mk.injEq] at hs
      obtain ⟨hn, -⟩ := hs
      subst hn
      constructor
      · intro hi
        have hlt : ¬ ((updateTableview r s true).tableView.ids.length ≤ i) := by omega
        exact ⟨_, _, by simp [getRes, hv, hm, hlt]; exact ⟨rfl, rfl⟩⟩
      · intro hni
        have hth := throwSized_materialized r s true i hv hpol (Or.inl hm)
        simp [getRes, hv, hm, hni, hth]
  case tableView =>
    cases hpol : r.updatePolicy
    case never =>
      rw [sizeRes_tableView_never r s hv hm hpol] at hs
      simp only [Except.ok.injEq, Prod.mk.injEq] at hs
      obtain ⟨hn, -⟩ := hs
      subst hn
      have hupd : updateTableview r s true = r := updateTableview_never r s true hpol
      constructor
      · intro hi
        have hlt : ¬ (r.tableView.ids.length ≤ i) := by omega
        exact ⟨_, _, by simp [getRes, hv, hm, hupd, hlt]; exact ⟨rfl, rfl⟩⟩
      · intro hni
        simp [getRes, hv, hm, hupd, hni, throwSized, sizeRes_tableView_never r s hv hm hpol]
    case auto =>
      have hsz : sizeRes r s = Except.ok ((updateTableview r s true).tableView.ids.length,
          updateTableview r s true) := by
        simp [sizeRes, hv, hm]
      rw [hsz] at hs
      simp only [Except.ok.injEq, Prod.mk.injEq] at hs
      obtain ⟨hn, -⟩ := hs
      subst hn
      constructor
      · intro hi
        have hlt : ¬ ((updateTableview r s true).tableView.ids.length ≤ i) := by omega
        exact ⟨_, _, by simp [getRes, hv, hm, hlt]; exact ⟨rfl, rfl⟩⟩
      · intro hni
        have hth := throwSized_materialized r s true i hv hpol (Or.inr hm)
        simp [getRes, hv, hm, hni, hth]

/-- Witness for C8: on the match-all Query-mode collection over a
two-row table (size 2), `get 1` succeeds and `get 2` raises OutOfBounds
carrying (2, 2). -/
theorem get_bounds_witness :
    getRes rQuery st2 2 = Except.error (Err.outOfBounds 2 2) ∧
    (getRes rQuery st2 1).isOk = true := by
  have hwf : WF rQuery st2 := by
    constructor
    · intro h
      exact absurd h (by decide)
    · intro h
      exact absurd h (by decide)
  have h := get_bounds rQuery st2 2 2 rQuery hwf rfl
  have h1 := get_bounds rQuery st2 1 2 rQuery hwf rfl
  refine ⟨h.2 (by omega), ?_⟩
  obtain ⟨e, r2, he⟩ := h1.1 (by omega)
  rw [he]
  rfl

end RealmOS
